import Mathlib

/-!
# Verification of the duckdb rate-limit-filesystem core

Shallow embedding of the GCRA rate limiter (`src/src/rate_limiter.cpp`),
the interception façade's admission path
(`src/src/rate_limit_file_system.cpp`, `ApplyRateLimit` and the per-method
dispatch), and the keyed configuration registry
(`src/unnamed/part_012`, `RateLimitConfig`).

Machine integers are modelled explicitly: `idx_t` is `Nat` (values taken
mod 2^64 where C++ would wrap), and the `int64_t` nanosecond arithmetic of
the limiter is `Int` with two's-complement wrapping applied at every
operation where the C++ `std::chrono` rep can wrap.  The CAS loop of
`TryAcquire` is collapsed to its single-threaded semantics: the CAS on the
`tat_nanos` atomic always succeeds on the first try, so the function is a
pure state transformer on the stored TAT.
-/

namespace RateLimitFS

/-- 2^63 - 1, the largest `int64_t` value (`Duration::max()` in nanoseconds,
also the count of `TimePoint::max()`). -/
def INT64_MAX : Int := 9223372036854775807

/-- 2^63 as an Int, for two's-complement conversions. -/
def INT64_HALF : Int := 9223372036854775808

/-- 2^64, the modulus of `uint64_t` arithmetic. -/
def UINT64_MOD : Nat := 18446744073709551616

/-- Reinterpret a `Nat` (a `uint64_t` computation result) as an `int64_t`:
reduce mod 2^64 and take the two's-complement reading. -/
def toInt64 (x : Nat) : Int :=
  let r : Int := (x % UINT64_MOD : Nat)
  if r < INT64_HALF then r else r - (UINT64_MOD : Int)

/-- Wrap an `Int` into `int64_t` range with two's-complement semantics
(the practical behaviour of the signed additions/subtractions in
`TryAcquire`; the proofs below only ever use it where it is the identity,
i.e. where the C++ arithmetic is free of overflow). -/
def wrap64 (x : Int) : Int := (x + INT64_HALF) % (UINT64_MOD : Int) - INT64_HALF

theorem toInt64_of_lt {x : Nat} (h : x < 2 ^ 63) : toInt64 x = (x : Int) := by
  have hlt : x < UINT64_MOD := lt_of_lt_of_le h (by norm_num [UINT64_MOD])
  simp only [toInt64, Nat.mod_eq_of_lt hlt]
  rw [if_pos]
  exact_mod_cast lt_of_lt_of_le (Int.ofNat_lt.mpr h) (by norm_num [INT64_HALF])

theorem wrap64_of_range {x : Int} (h1 : -INT64_HALF ≤ x) (h2 : x ≤ INT64_MAX) :
    wrap64 x = x := by
  have h0 : (0 : Int) ≤ x + INT64_HALF := by
    simpa [neg_le_iff_add_nonneg, add_comm] using h1
  have hlt : x + INT64_HALF < (UINT64_MOD : Int) := by
    have : x + INT64_HALF ≤ INT64_MAX + INT64_HALF := by linarith
    calc x + INT64_HALF ≤ INT64_MAX + INT64_HALF := this
      _ < (UINT64_MOD : Int) := by norm_num [INT64_MAX, INT64_HALF, UINT64_MOD]
  simp only [wrap64, Int.emod_eq_of_lt h0 hlt]
  ring

/-- Embeds `Quota` (src/src/rate_limiter.cpp:11-48): an immutable pair of
`bandwidth` (units per second) and `burst` (both `idx_t`, i.e. `uint64_t`).
The constructor rejects the all-zero pair; that precondition is carried as
a hypothesis where it matters. -/
structure Quota where
  bandwidth : Nat
  burst : Nat
deriving Repr, DecidableEq

/-- Embeds `Quota::HasRateLimiting` (rate_limiter.cpp:25-27): `bandwidth > 0`. -/
def Quota.hasRateLimiting (q : Quota) : Bool := q.bandwidth > 0

/-- Embeds `Quota::HasBurstLimiting` (rate_limiter.cpp:29-31): `burst > 0`. -/
def Quota.hasBurstLimiting (q : Quota) : Bool := q.burst > 0

/-- The `uint64_t` value of `Quota::GetEmissionInterval`
(rate_limiter.cpp:33-39): `0` when bandwidth is 0, otherwise
`1'000'000'000 / bandwidth` — `seconds(1)` cast to nanoseconds divided by
`bandwidth`; the chrono division is performed in the common rep
`uint64_t`.  The quotient is at most 10^9, so the conversion back to the
`int64_t` rep of `Duration` never wraps and the `Nat` value is exact. -/
def Quota.emissionNat (q : Quota) : Nat :=
  if q.bandwidth = 0 then 0 else 1000000000 / q.bandwidth

/-- Embeds `Quota::GetEmissionInterval` as the `int64_t` count of the returned
`Duration`. -/
def Quota.getEmissionInterval (q : Quota) : Int := (q.emissionNat : Int)

/-- Embeds `Quota::GetDelayTolerance` (rate_limiter.cpp:41-48) as the `int64_t`
count of the returned `Duration`: `Duration::max()` when bandwidth or
burst is 0, otherwise `emission_interval * burst` — a `uint64_t`
multiplication (mod 2^64) whose result converts to the `int64_t` rep. -/
def Quota.getDelayTolerance (q : Quota) : Int :=
  if q.bandwidth = 0 ∨ q.burst = 0 then INT64_MAX
  else toInt64 (q.emissionNat * q.burst)

/-- The `int64_t` increment `emission_interval * n` computed in
`TryAcquire` (rate_limiter.cpp:155-156): a `uint64_t` multiplication
(mod 2^64) cast back to the `int64_t` rep by `duration_cast`. -/
def Quota.incrementNanos (q : Quota) (n : Nat) : Int := toInt64 (q.emissionNat * n)

/-- Embeds `WaitInfo` (rate_limiter.hpp): `ready_at` is the nanosecond count of
the `TimePoint`, `wait_duration` the nanosecond count of the `Duration`. -/
structure WaitInfo where
  ready_at : Int
  wait_duration : Int
deriving Repr, DecidableEq

/-- Embeds `RateLimiter::AcquireDecision` (rate_limiter.cpp). -/
structure AcquireDecision where
  allowed : Bool
  wait_info : Option WaitInfo
deriving Repr, DecidableEq

/-- Embeds `RateLimitResult` (rate_limiter.hpp). -/
inductive RateLimitResult where
  | Allowed
  | InsufficientCapacity
deriving Repr, DecidableEq

/-- Embeds `RateLimiter::TryAcquire` (rate_limiter.cpp:148-179) as a pure state
transformer on the stored `tat_nanos`.  Single-threaded semantics: the
initial `GetTatNanos` load returns `tat` and the CAS succeeds, so the
retry loop runs exactly once.  Signed 64-bit additions and subtractions
are modelled with two's-complement wrapping.  Returns the decision and
the `tat_nanos` value stored after the call (unchanged on a wait,
`new_tat` on an admission). -/
def tryAcquire (q : Quota) (tat now : Int) (n : Nat) : AcquireDecision × Int :=
  let increment_nanos := q.incrementNanos n
  let delay_tolerance_nanos := q.getDelayTolerance
  let new_tat_nanos := wrap64 (max tat now + increment_nanos)
  let earliest_nanos := wrap64 (new_tat_nanos - delay_tolerance_nanos)
  if earliest_nanos > now then
    (⟨false, some ⟨earliest_nanos, wrap64 (earliest_nanos - now)⟩⟩, tat)
  else
    (⟨true, none⟩, new_tat_nanos)

/-- Embeds `RateLimiter::TryAcquireImmediate` (rate_limiter.cpp:107-130) as a
pure state transformer: takes the stored `tat` and the clock's current
time `now`, returns the `std::optional<WaitInfo>` result (`none` =
admitted) and the stored `tat` after the call.  The function never
sleeps, so the clock is untouched. -/
def tryAcquireImmediate (q : Quota) (tat now : Int) (n : Nat) :
    Option WaitInfo × Int :=
  if n = 0 then (none, tat)
  else if q.hasBurstLimiting && decide (n > q.burst) then
    (some ⟨INT64_MAX, INT64_MAX⟩, tat)
  else if !q.hasRateLimiting then (none, tat)
  else
    let (decision, tat') := tryAcquire q tat now n
    if decision.allowed then (none, tat') else (decision.wait_info, tat')

/-- Embeds `MockClock::SleepUntil` (mock_clock.hpp:24-32): advance the stored
time to `time_point` if it lies in the future, otherwise do nothing. -/
def mockSleepUntil (current target : Int) : Int :=
  if target > current then target else current

/-- The `while (true)` loop of `RateLimiter::UntilNReady`
(rate_limiter.cpp:92-104), fuel-bounded, driven by a mock clock: each
iteration reads the clock (`now`), runs `TryAcquire`, and on a wait
sleeps the mock clock until `ready_at` and retries.  Returns `none` if
the fuel runs out, otherwise the result together with the final
`tat_nanos` and the final mock-clock time. -/
def untilNReadyLoop (q : Quota) (n : Nat) :
    Nat → Int → Int → Option RateLimitResult × Int × Int
  | 0, tat, now => (none, tat, now)
  | fuel + 1, tat, now =>
    let (decision, tat') := tryAcquire q tat now n
    if decision.allowed then (some .Allowed, tat', now)
    else
      match decision.wait_info with
      | some wi => untilNReadyLoop q n fuel tat' (mockSleepUntil now wi.ready_at)
      | none => untilNReadyLoop q n fuel tat' now

/-- Embeds `RateLimiter::UntilNReady` (rate_limiter.cpp:77-105) on a mock clock:
the `n = 0`, burst-limit and no-rate-limiting early returns, then the
fuel-bounded retry loop. -/
def untilNReady (q : Quota) (fuel : Nat) (tat now : Int) (n : Nat) :
    Option RateLimitResult × Int × Int :=
  if n = 0 then (some .Allowed, tat, now)
  else if q.hasBurstLimiting && decide (n > q.burst) then
    (some .InsufficientCapacity, tat, now)
  else if !q.hasRateLimiting then (some .Allowed, tat, now)
  else untilNReadyLoop q n fuel tat now

/-- Embeds `FileSystemOperation` (src/src/include/file_system_operation.hpp). -/
inductive FileSystemOperation where
  | NONE
  | STAT
  | READ
  | WRITE
  | LIST
  | DELETE
deriving Repr, DecidableEq

/-- Embeds `RateLimitMode` (src/src/include/rate_limit_mode.hpp). -/
inductive RateLimitMode where
  | NONE
  | BLOCKING
  | NON_BLOCKING
deriving Repr, DecidableEq

/-- The two `IOException` flavours thrown by
`RateLimitFileSystem::ApplyRateLimit` (rate_limit_file_system.cpp:78-89):
`rateLimited` carries the reported wait in milliseconds ("Rate limit
exceeded for operation ...: would need to wait %lld ms"), `exceedsBurst`
is the "Request size ... exceeds burst capacity" error. -/
inductive FacadeError where
  | rateLimited (waitMs : Int)
  | exceedsBurst
deriving Repr, DecidableEq

/-- Outcome of one modelled `ApplyRateLimit` call: `none` when the
blocking loop's fuel ran out, otherwise either the error thrown or the
limiter's (tat, clock) state after the call. -/
def FacadeOutcome := Option (Except FacadeError (Int × Int))

/-- Embeds `RateLimitFileSystem::ApplyRateLimit` (rate_limit_file_system.cpp:
57-90), given the configured quota and mode of the resolved entry, the
limiter's stored `tat`, the mock clock's time `now` and the request cost
`bytes`: run `TryAcquireImmediate`; if it yields a wait and the mode is
`NON_BLOCKING`, throw the rate-limited error with the wait converted to
milliseconds (`duration_cast`, i.e. division by 10^6); otherwise run
`UntilNReady` and throw the exceeds-burst error on
`InsufficientCapacity`. -/
def applyRateLimit (q : Quota) (mode : RateLimitMode) (fuel : Nat)
    (tat now : Int) (bytes : Nat) : Option (Except FacadeError (Int × Int)) :=
  let (result, tat1) := tryAcquireImmediate q tat now bytes
  match result with
  | none => some (.ok (tat1, now))
  | some wi =>
    if mode = RateLimitMode.NON_BLOCKING then
      some (.error (.rateLimited (wi.wait_duration / 1000000)))
    else
      match untilNReady q fuel tat1 now bytes with
      | (some .InsufficientCapacity, tat2, now2) =>
        let _ := (tat2, now2)
        some (.error .exceedsBurst)
      | (some .Allowed, tat2, now2) => some (.ok (tat2, now2))
      | (none, _, _) => none

/-- The intercepted calls of `RateLimitFileSystem`
(rate_limit_file_system.cpp:100-250).  Byte-bearing calls carry their
`nr_bytes` cost. -/
inductive FacadeMethod where
  | openFile
  | openFileExtended
  | readAt (nrBytes : Nat)
  | read (nrBytes : Nat)
  | writeAt (nrBytes : Nat)
  | write (nrBytes : Nat)
  | getFileSize
  | getLastModifiedTime
  | getFileType
  | truncate
  | fileSync
  | directoryExists
  | createDirectory
  | removeDirectory
  | moveFile
  | fileExists
  | isPipe
  | removeFile
  | tryRemoveFile
  | glob
  | listFiles
  | listFilesExtended
  | seek
  | reset
  | seekPosition
  | canSeek
  | onDiskFile
deriving Repr, DecidableEq

/-- The `ApplyRateLimit` invocation each façade method performs before
forwarding to the inner file system, read off the bodies in
rate_limit_file_system.cpp: `none` means the method forwards without any
rate-limit admission.  `OpenFile` (lines 100-105) and `OpenFileExtended`
(lines 230-235) forward directly — the source comments them "not rate
limited".  Metadata calls use the default cost `bytes = 1` of
`ApplyRateLimit`. -/
def facadeRateLimitOf : FacadeMethod → Option (FileSystemOperation × Nat)
  | .openFile => none
  | .openFileExtended => none
  | .readAt n => some (.READ, n)
  | .read n => some (.READ, n)
  | .writeAt n => some (.WRITE, n)
  | .write n => some (.WRITE, n)
  | .getFileSize => some (.STAT, 1)
  | .getLastModifiedTime => some (.STAT, 1)
  | .getFileType => some (.STAT, 1)
  | .truncate => some (.WRITE, 1)
  | .fileSync => none
  | .directoryExists => some (.STAT, 1)
  | .createDirectory => some (.WRITE, 1)
  | .removeDirectory => some (.DELETE, 1)
  | .moveFile => some (.WRITE, 1)
  | .fileExists => some (.STAT, 1)
  | .isPipe => some (.STAT, 1)
  | .removeFile => some (.DELETE, 1)
  | .tryRemoveFile => some (.DELETE, 1)
  | .glob => some (.LIST, 1)
  | .listFiles => some (.LIST, 1)
  | .listFilesExtended => some (.LIST, 1)
  | .seek => none
  | .reset => none
  | .seekPosition => none
  | .canSeek => none
  | .onDiskFile => none

/-- Embeds `RateLimitFileSystem::OpenFile` (rate_limit_file_system.cpp:100-105)
as a transformer of the limiter/clock state of the STAT entry: the body
performs no `ApplyRateLimit` call and forwards to the inner file system,
so the state it returns is the state it received. -/
def facadeOpenFile (state : Int × Int) : Int × Int := state

/-- Embeds `RateLimitConfig::ConfigKey` (src/unnamed/part_015): the registry is
keyed by (filesystem name, operation), with exact string equality on the
name. -/
structure ConfigKey where
  filesystem_name : String
  operation : FileSystemOperation
deriving Repr, DecidableEq

/-- A limiter handle as built by `CreateRateLimiter(quota, burst, clock)`
(rate_limiter.cpp:185-188): the `Quota` it was constructed from plus its
fresh `RateLimiterState`, whose `tat_nanos` starts at 0. -/
structure LimiterHandle where
  quota : Quota
  tat : Int
deriving Repr, DecidableEq

/-- Embeds `OperationConfig` (src/unnamed/part_015): the declared policy of one
registry entry and its lazily (re)built limiter. -/
structure OperationConfig where
  filesystem_name : String
  operation : FileSystemOperation
  quota : Nat
  mode : RateLimitMode
  burst : Nat
  rate_limiter : Option LimiterHandle
deriving Repr, DecidableEq

/-- The registry's `unordered_map<ConfigKey, OperationConfig>` modelled
as a partial lookup function. -/
def Registry := ConfigKey → Option OperationConfig

/-- Map update (`configs[key] = config` / `emplace`). -/
def Registry.insert (r : Registry) (k : ConfigKey) (c : OperationConfig) : Registry :=
  fun k' => if k' = k then some c else r k'

/-- Map erasure (`configs.erase(it)`). -/
def Registry.remove (r : Registry) (k : ConfigKey) : Registry :=
  fun k' => if k' = k then none else r k'

/-- The registry with no entries. -/
def Registry.empty : Registry := fun _ => none

/-- Embeds `RateLimitConfig::UpdateRateLimiter` (src/unnamed/part_012):
rebuild the entry's limiter from its current quota and burst via
`CreateRateLimiter(config.quota, config.burst, clock)`, giving a fresh
state with `tat_nanos = 0`. -/
def updateRateLimiter (c : OperationConfig) : OperationConfig :=
  { c with rate_limiter := some ⟨⟨c.quota, c.burst⟩, 0⟩ }

/-- The `InvalidInputException` raised by the configuration surface. -/
inductive ConfigError where
  | invalidConfig
deriving Repr, DecidableEq

/-- Embeds `RateLimitConfig::SetQuota` (src/unnamed/part_012:23-52).  If no
entry exists and the value is 0, do nothing; if no entry exists, create
one with burst 0; otherwise overwrite quota and mode, erasing the entry
when quota and burst are both 0; finally rebuild the limiter of the
surviving entry. -/
def setQuota (r : Registry) (filesystem_name : String)
    (operation : FileSystemOperation) (value : Nat) (mode : RateLimitMode) :
    Registry :=
  let key : ConfigKey := ⟨filesystem_name, operation⟩
  match r key with
  | none =>
    if value = 0 then r
    else
      r.insert key (updateRateLimiter
        ⟨filesystem_name, operation, value, mode, 0, none⟩)
  | some c =>
    let c' := { c with quota := value, mode := mode }
    if c'.quota = 0 ∧ c'.burst = 0 then r.remove key
    else r.insert key (updateRateLimiter c')

/-- Embeds `RateLimitConfig::SetBurst` (src/unnamed/part_012:54-87).  Rejects
operations other than READ and WRITE before touching the map (the
returned registry is the argument itself in that case); otherwise the
same create / overwrite / erase-when-both-zero rules as `SetQuota`, with
new entries defaulting to quota 0 and BLOCKING mode.  Returns the
registry after the call together with the raised error, if any. -/
def setBurst (r : Registry) (filesystem_name : String)
    (operation : FileSystemOperation) (value : Nat) :
    Registry × Option ConfigError :=
  if operation ≠ FileSystemOperation.READ ∧ operation ≠ FileSystemOperation.WRITE then
    (r, some .invalidConfig)
  else
    let key : ConfigKey := ⟨filesystem_name, operation⟩
    match r key with
    | none =>
      if value = 0 then (r, none)
      else
        (r.insert key (updateRateLimiter
          ⟨filesystem_name, operation, 0, RateLimitMode.BLOCKING, value, none⟩), none)
    | some c =>
      let c' := { c with burst := value }
      if c'.quota = 0 ∧ c'.burst = 0 then (r.remove key, none)
      else (r.insert key (updateRateLimiter c'), none)

/-- Embeds `RateLimitConfig::GetConfig` (src/unnamed/part_012:89-97): lookup,
`none` when the key is not configured. -/
def getConfig (r : Registry) (filesystem_name : String)
    (operation : FileSystemOperation) : Option OperationConfig :=
  r ⟨filesystem_name, operation⟩

/-- Every registry reachable through `SetQuota`/`SetBurst` keeps burst 0
on entries whose operation is neither READ nor WRITE: `SetQuota` creates
entries with burst 0 and `SetBurst` rejects such operations. -/
def Registry.WellFormed (r : Registry) : Prop :=
  ∀ k c, r k = some c →
    k.operation = FileSystemOperation.READ ∨
    k.operation = FileSystemOperation.WRITE ∨ c.burst = 0

/-- Wrapper: `TryAcquireImmediate` together with the clock it reads: the function
calls `clock->Now()` once and never sleeps (rate_limiter.cpp:107-130
contains no `SleepUntil`/`SleepFor`), so the clock component of the
result is the clock it was given. -/
def tryAcquireImmediateRun (q : Quota) (tat clock : Int) (n : Nat) :
    Option WaitInfo × Int × Int :=
  let r := tryAcquireImmediate q tat clock n
  (r.1, r.2, clock)

/-- One call into the limiter: either `TryAcquireImmediate` or the
blocking `UntilNReady` (with its loop fuel), each at the mock-clock time
`now` in force when the call starts. -/
inductive LimiterCall where
  | immediate (now : Int) (n : Nat)
  | blocking (fuel : Nat) (now : Int) (n : Nat)
deriving Repr, DecidableEq

/-- The `tat_nanos` value stored after one limiter call. -/
def callStepTat (q : Quota) (tat : Int) : LimiterCall → Int
  | .immediate now n => (tryAcquireImmediate q tat now n).2
  | .blocking fuel now n => (untilNReady q fuel tat now n).2.1

/-- The `tat_nanos` value stored after a sequence of limiter calls. -/
def runCalls (q : Quota) (tat : Int) : List LimiterCall → Int
  | [] => tat
  | c :: cs => runCalls q (callStepTat q tat c) cs

/-- The int64 nanosecond arithmetic of one limiter call at stored state
`tat`, clock time `now` and cost `n` is overflow-free: state and clock
are non-negative, the increment and (when burst limiting is on) the
delay tolerance fit in `int64_t`, and the new TAT does not exceed
`INT64_MAX`. -/
def StepOk (q : Quota) (tat now : Int) (n : Nat) : Bool :=
  decide (0 ≤ tat) && decide (0 ≤ now) &&
  decide (q.emissionNat * n < 2 ^ 63) &&
  (q.burst == 0 || decide (q.emissionNat * q.burst < 2 ^ 63)) &&
  decide (max tat now + (q.emissionNat * n : Int) ≤ INT64_MAX)

/-- Overflow-freedom of one `LimiterCall`. -/
def CallOk (q : Quota) (tat : Int) : LimiterCall → Bool
  | .immediate now n => StepOk q tat now n
  | .blocking _ now n => StepOk q tat now n

/-- Overflow-freedom of a whole call sequence, checked against the state
each call actually sees. -/
def TraceOk (q : Quota) : Int → List LimiterCall → Bool
  | _, [] => true
  | tat, c :: cs => CallOk q tat c && TraceOk q (callStepTat q tat c) cs

theorem toInt64_lb (x : Nat) : -INT64_HALF ≤ toInt64 x := by
  simp only [toInt64]
  split
  · simp only [INT64_HALF]; omega
  · have hlt : x % UINT64_MOD < UINT64_MOD := Nat.mod_lt _ (by norm_num [UINT64_MOD])
    have := Int.ofNat_lt.mpr hlt
    simp only [INT64_HALF, UINT64_MOD] at *
    omega

theorem toInt64_ub (x : Nat) : toInt64 x ≤ INT64_MAX := by
  simp only [toInt64]
  split
  · next h => simp only [INT64_HALF, INT64_MAX] at *; omega
  · have hlt : x % UINT64_MOD < UINT64_MOD := Nat.mod_lt _ (by norm_num [UINT64_MOD])
    have := Int.ofNat_lt.mpr hlt
    simp only [INT64_HALF, UINT64_MOD, INT64_MAX] at *
    omega

theorem getDelayTolerance_nonneg (q : Quota)
    (h : q.burst ≠ 0 → q.emissionNat * q.burst < 2 ^ 63) :
    0 ≤ q.getDelayTolerance := by
  simp only [Quota.getDelayTolerance]
  split
  · norm_num [INT64_MAX]
  · next hc =>
    push_neg at hc
    rw [toInt64_of_lt (h hc.2)]
    omega

theorem getDelayTolerance_ub (q : Quota) : q.getDelayTolerance ≤ INT64_MAX := by
  simp only [Quota.getDelayTolerance]
  split
  · exact le_refl _
  · exact toInt64_ub _

/-- Overflow-free characterization of `TryAcquire`: when the nanosecond
arithmetic stays inside `int64_t` range, the wrapping model computes
exactly the mathematical GCRA formulas `new_tat = max(tat, now) +
n·emission_interval` and `earliest = new_tat − delay_tolerance`. -/
theorem tryAcquire_eq (q : Quota) (tat now : Int) (n : Nat)
    (h1 : 0 ≤ tat) (h2 : 0 ≤ now)
    (h3 : q.emissionNat * n < 2 ^ 63)
    (h4 : q.burst ≠ 0 → q.emissionNat * q.burst < 2 ^ 63)
    (h5 : max tat now + (q.emissionNat * n : Int) ≤ INT64_MAX) :
    tryAcquire q tat now n =
      (if max tat now + (q.emissionNat * n : Int) - q.getDelayTolerance > now then
        (⟨false, some ⟨max tat now + (q.emissionNat * n : Int) - q.getDelayTolerance,
          max tat now + (q.emissionNat * n : Int) - q.getDelayTolerance - now⟩⟩, tat)
      else (⟨true, none⟩, max tat now + (q.emissionNat * n : Int))) := by
  have hm0 : (0 : Int) ≤ max tat now := le_max_of_le_left h1
  have hincnn : (0 : Int) ≤ (q.emissionNat * n : Int) := by positivity
  have htolnn := getDelayTolerance_nonneg q h4
  have htolub := getDelayTolerance_ub q
  have hnew1 : -INT64_HALF ≤ max tat now + (q.emissionNat * n : Int) := by
    have : (-INT64_HALF : Int) ≤ 0 := by norm_num [INT64_HALF]
    linarith
  have hearly1 : -INT64_HALF ≤ max tat now + (q.emissionNat * n : Int) - q.getDelayTolerance := by
    simp only [INT64_HALF, INT64_MAX] at *
    omega
  have hearly2 : max tat now + (q.emissionNat * n : Int) - q.getDelayTolerance ≤ INT64_MAX := by
    linarith
  simp only [tryAcquire, Quota.incrementNanos, toInt64_of_lt h3, Nat.cast_mul,
    wrap64_of_range hnew1 h5, wrap64_of_range hearly1 hearly2]
  split
  · next hgt =>
    have hw1 : -INT64_HALF ≤ max tat now + (q.emissionNat * n : Int) - q.getDelayTolerance - now := by
      have : (-INT64_HALF : Int) ≤ 0 := by norm_num [INT64_HALF]
      linarith
    have hw2 : max tat now + (q.emissionNat * n : Int) - q.getDelayTolerance - now ≤ INT64_MAX := by
      linarith
    rw [wrap64_of_range hw1 hw2]
  · rfl

/-- The burst-exceeded path of `TryAcquireImmediate`
(rate_limiter.cpp:112-116): the `Duration::max()` sentinel, with the
stored state untouched. -/
theorem tryAcquireImmediate_overburst (q : Quota) (tat now : Int) (n : Nat)
    (hb : 0 < q.burst) (hn : q.burst < n) :
    tryAcquireImmediate q tat now n = (some ⟨INT64_MAX, INT64_MAX⟩, tat) := by
  have hn0 : n ≠ 0 := by omega
  simp [tryAcquireImmediate, Quota.hasBurstLimiting, hn0, hb, hn]

/-- The burst-exceeded path of `UntilNReady` (rate_limiter.cpp:82-85):
immediate `InsufficientCapacity`, no loop iteration, no sleep. -/
theorem untilNReady_overburst (q : Quota) (fuel : Nat) (tat now : Int) (n : Nat)
    (hb : 0 < q.burst) (hn : q.burst < n) :
    untilNReady q fuel tat now n = (some .InsufficientCapacity, tat, now) := by
  have hn0 : n ≠ 0 := by omega
  simp [untilNReady, Quota.hasBurstLimiting, hn0, hb, hn]

theorem getDelayTolerance_eq (q : Quota) (hb : q.bandwidth ≠ 0) (hbu : q.burst ≠ 0)
    (h : q.emissionNat * q.burst < 2 ^ 63) :
    q.getDelayTolerance = (q.emissionNat * q.burst : Int) := by
  simp only [Quota.getDelayTolerance]
  rw [if_neg (by simp [hb, hbu]), toInt64_of_lt h]
  push_cast
  ring

/-- C1: with rate limiting on and a cost `n ≥ 1` (at most `burst` when
burst limiting is on), a single GCRA admission attempt at clock time
`now` with stored state `tat` computes
`new_tat = max(tat, now) + n · emission_interval` and
`earliest = new_tat − delay_tolerance`; if `earliest > now` it returns a
wait whose `ready_at` is `earliest` and whose `wait` is `earliest − now`
and leaves the stored tat unchanged, otherwise it stores `new_tat` (the
CAS of the single-threaded embedding succeeds) and admits.  Stated in
the regime where the `int64_t` nanosecond arithmetic does not overflow
(hypotheses `h1`-`h5`). -/
theorem gcra_single_attempt (q : Quota) (tat now : Int) (n : Nat)
    (hn : 1 ≤ n) (hrate : 0 < q.bandwidth)
    (hburst : q.burst ≠ 0 → n ≤ q.burst)
    (h1 : 0 ≤ tat) (h2 : 0 ≤ now)
    (h3 : q.emissionNat * n < 2 ^ 63)
    (h4 : q.burst ≠ 0 → q.emissionNat * q.burst < 2 ^ 63)
    (h5 : max tat now + (q.emissionNat * n : Int) ≤ INT64_MAX) :
    (max tat now + (q.emissionNat * n : Int) - q.getDelayTolerance > now →
      tryAcquire q tat now n =
        (⟨false, some ⟨max tat now + (q.emissionNat * n : Int) - q.getDelayTolerance,
          max tat now + (q.emissionNat * n : Int) - q.getDelayTolerance - now⟩⟩, tat)) ∧
    (¬ max tat now + (q.emissionNat * n : Int) - q.getDelayTolerance > now →
      tryAcquire q tat now n =
        (⟨true, none⟩, max tat now + (q.emissionNat * n : Int))) := by
  rw [tryAcquire_eq q tat now n h1 h2 h3 h4 h5]
  constructor
  · intro h
    rw [if_pos h]
  · intro h
    rw [if_neg h]

/-- Witness for C1 at the spec's partial-refill scenario: rate 10/s,
burst 10, stored tat 1.5s, clock 0.5s, cost 1 — the attempt must wait
until 0.6s (wait 0.1s) and leave the tat untouched. -/
theorem gcra_single_attempt_witness :
    tryAcquire ⟨10, 10⟩ 1500000000 500000000 1 =
      (⟨false, some ⟨600000000, 100000000⟩⟩, 1500000000) := by
  have h := (gcra_single_attempt ⟨10, 10⟩ 1500000000 500000000 1
    (by decide) (by decide) (fun _ => by decide) (by decide) (by decide)
    (by decide) (fun _ => by decide) (by decide)).1 (by decide)
  exact h.trans (by decide)

/-- C4: with rate limiting on, `1 ≤ n ≤ burst`, and an idle limiter
(fresh state, `tat = 0`) at any non-negative clock time `t` (within the
int64 horizon), `TryAcquireImmediate(n)` admits (`none`) and does not
move the clock. -/
theorem idle_limiter_admits (q : Quota) (t : Int) (n : Nat)
    (hrate : 0 < q.bandwidth) (hn : 1 ≤ n) (hburst : n ≤ q.burst)
    (ht : 0 ≤ t)
    (h4 : q.emissionNat * q.burst < 2 ^ 63)
    (h5 : t + (q.emissionNat * n : Int) ≤ INT64_MAX) :
    (tryAcquireImmediateRun q 0 t n).1 = none ∧
    (tryAcquireImmediateRun q 0 t n).2.2 = t := by
  have hn0 : n ≠ 0 := by omega
  have hb0 : q.burst ≠ 0 := by omega
  have h3 : q.emissionNat * n < 2 ^ 63 :=
    lt_of_le_of_lt (Nat.mul_le_mul_left _ hburst) h4
  have hmax : max (0 : Int) t = t := max_eq_right ht
  have heq := tryAcquire_eq q 0 t n le_rfl ht h3 (fun _ => h4)
    (by rw [hmax]; exact h5)
  rw [getDelayTolerance_eq q (by omega) hb0 h4] at heq
  have hincle : (q.emissionNat * n : Int) ≤ (q.emissionNat * q.burst : Int) := by
    exact_mod_cast Nat.mul_le_mul_left _ hburst
  have hle : ¬ max (0 : Int) t + (q.emissionNat * n : Int) -
      (q.emissionNat * q.burst : Int) > t := by
    rw [hmax]
    push_neg
    linarith
  rw [if_neg hle] at heq
  refine ⟨?_, rfl⟩
  simp [tryAcquireImmediateRun, tryAcquireImmediate, hn0, heq,
    Nat.not_lt.mpr hburst, Quota.hasRateLimiting, hrate]

/-- Witness for C4: rate 10/s, burst 20, fresh limiter at clock time 7ns,
cost 20 — admitted, clock unchanged. -/
theorem idle_limiter_admits_witness :
    (tryAcquireImmediateRun ⟨10, 20⟩ 0 7 20).1 = none ∧
    (tryAcquireImmediateRun ⟨10, 20⟩ 0 7 20).2.2 = 7 :=
  idle_limiter_admits ⟨10, 20⟩ 7 20 (by decide) (by decide) (by decide)
    (by decide) (by decide) (by decide)

/-- C5: with burst limiting on and `n > burst`, `TryAcquireImmediate`
returns the Exceeds outcome carried as a `Duration::max()` wait, and
`UntilNReady` returns `InsufficientCapacity` at once — no loop
iteration, no sleep — and both leave the stored tat (and the clock)
exactly as they were. -/
theorem overburst_request_rejected (q : Quota) (fuel : Nat) (tat now : Int)
    (n : Nat) (hb : 0 < q.burst) (hn : q.burst < n) :
    tryAcquireImmediate q tat now n = (some ⟨INT64_MAX, INT64_MAX⟩, tat) ∧
    untilNReady q fuel tat now n = (some .InsufficientCapacity, tat, now) :=
  ⟨tryAcquireImmediate_overburst q tat now n hb hn,
    untilNReady_overburst q fuel tat now n hb hn⟩

/-- Witness for C5: rate 1000/s, burst 100, cost 101. -/
theorem overburst_request_rejected_witness :
    tryAcquireImmediate ⟨1000, 100⟩ 7 9 101 = (some ⟨INT64_MAX, INT64_MAX⟩, 7) ∧
    untilNReady ⟨1000, 100⟩ 3 7 9 101 = (some .InsufficientCapacity, 7, 9) :=
  overburst_request_rejected ⟨1000, 100⟩ 3 7 9 101 (by decide) (by decide)

/-- C2 counterexample: with burst 1, rate 1/s, mode NON_BLOCKING and
cost 2 > burst, `ApplyRateLimit` throws the rate-limited error (the
`Duration::max()` sentinel reported as a 9223372036854 ms wait), not the
exceeds-burst error the claim requires for every mode. -/
theorem facade_overburst_nonblocking_counterexample :
    applyRateLimit ⟨1, 1⟩ RateLimitMode.NON_BLOCKING 1 0 0 2 =
      some (Except.error (FacadeError.rateLimited 9223372036854)) ∧
    applyRateLimit ⟨1, 1⟩ RateLimitMode.NON_BLOCKING 1 0 0 2 ≠
      some (Except.error FacadeError.exceedsBurst) := by
  refine ⟨rfl, fun h => ?_⟩
  rw [show applyRateLimit ⟨1, 1⟩ RateLimitMode.NON_BLOCKING 1 0 0 2 =
    some (Except.error (FacadeError.rateLimited 9223372036854)) from rfl] at h
  simp at h

/-- C2 amended: for a cost greater than a positive burst, the façade
fails with the exceeds-burst error in BLOCKING (and NONE) mode, but in
NON_BLOCKING mode it fails with the rate-limited error, reporting the
`Duration::max()` sentinel converted to milliseconds. -/
theorem facade_overburst_error_by_mode (q : Quota) (mode : RateLimitMode)
    (fuel : Nat) (tat now : Int) (bytes : Nat)
    (hb : 0 < q.burst) (hn : q.burst < bytes) :
    applyRateLimit q mode fuel tat now bytes =
      some (.error (if mode = RateLimitMode.NON_BLOCKING
        then FacadeError.rateLimited (INT64_MAX / 1000000)
        else FacadeError.exceedsBurst)) := by
  simp only [applyRateLimit, tryAcquireImmediate_overburst q tat now bytes hb hn]
  by_cases hm : mode = RateLimitMode.NON_BLOCKING
  · simp [hm]
  · simp [hm, untilNReady_overburst q fuel tat now bytes hb hn]

/-- Witness for the amended C2, blocking side: burst 1, cost 2,
mode BLOCKING yields the exceeds-burst error. -/
theorem facade_overburst_error_by_mode_witness :
    applyRateLimit ⟨1, 1⟩ RateLimitMode.BLOCKING 1 0 0 2 =
      some (.error (if RateLimitMode.BLOCKING = RateLimitMode.NON_BLOCKING
        then FacadeError.rateLimited (INT64_MAX / 1000000)
        else FacadeError.exceedsBurst)) :=
  facade_overburst_error_by_mode ⟨1, 1⟩ RateLimitMode.BLOCKING 1 0 0 2
    (by decide) (by decide)

/-- C6: the façade's `OpenFile` and `OpenFileExtended`
(rate_limit_file_system.cpp:100-105, 230-235) perform no rate-limit
admission at all — no STAT (or any) `ApplyRateLimit` call precedes the
forwarding to the inner file system, and the limiter/clock state is
untouched.  This contradicts the claim (and the repository's own test
"file open is rate limited as STAT"). -/
theorem open_file_not_rate_limited :
    facadeRateLimitOf FacadeMethod.openFile = none ∧
    facadeRateLimitOf FacadeMethod.openFileExtended = none ∧
    facadeOpenFile = id :=
  ⟨rfl, rfl, rfl⟩

/-- C7: `SetBurst` on an operation that is neither READ nor WRITE raises
`InvalidInputException` before taking the lock, so the registry map is
exactly what it was. -/
theorem set_burst_rejects_non_byte_ops (r : Registry) (name : String)
    (op : FileSystemOperation) (v : Nat)
    (h1 : op ≠ FileSystemOperation.READ) (h2 : op ≠ FileSystemOperation.WRITE) :
    setBurst r name op v = (r, some ConfigError.invalidConfig) := by
  simp [setBurst, h1, h2]

/-- Witness for C7 at op = STAT on the empty registry. -/
theorem set_burst_rejects_non_byte_ops_witness :
    setBurst Registry.empty "fs" FileSystemOperation.STAT 5 =
      (Registry.empty, some ConfigError.invalidConfig) :=
  set_burst_rejects_non_byte_ops Registry.empty "fs" FileSystemOperation.STAT 5
    (by decide) (by decide)

/-- C3: with rate limiting on and a cost `n` admissible under the burst
cap, on a single-threaded mock clock: if `TryAcquireImmediate(n)` at
stored state `tat` and time `now` returns `Wait{wait}`, then advancing
the clock by exactly `wait` and calling `TryAcquireImmediate(n)` again
returns Admitted.  Stated in the overflow-free regime of the int64
arithmetic (hypotheses `h1`-`h5`). -/
theorem wait_then_admit (q : Quota) (tat now : Int) (n : Nat) (wi : WaitInfo)
    (hrate : 0 < q.bandwidth)
    (hburst : q.burst ≠ 0 → n ≤ q.burst)
    (h1 : 0 ≤ tat) (h2 : 0 ≤ now)
    (h3 : q.emissionNat * n < 2 ^ 63)
    (h4 : q.burst ≠ 0 → q.emissionNat * q.burst < 2 ^ 63)
    (h5 : max tat now + (q.emissionNat * n : Int) ≤ INT64_MAX)
    (hw : (tryAcquireImmediate q tat now n).1 = some wi) :
    (tryAcquireImmediate q tat (now + wi.wait_duration) n).1 = none := by
  have hn0 : n ≠ 0 := by
    intro h0
    rw [h0] at hw
    simp [tryAcquireImmediate] at hw
  have hbf : (q.hasBurstLimiting && decide (n > q.burst)) = false := by
    by_cases hb0 : q.burst = 0
    · simp [Quota.hasBurstLimiting, hb0]
    · simp [Nat.not_lt.mpr (hburst hb0)]
  have hinctol : (q.emissionNat * n : Int) ≤ q.getDelayTolerance := by
    by_cases hb0 : q.burst = 0
    · have : q.getDelayTolerance = INT64_MAX := by
        simp [Quota.getDelayTolerance, hb0]
      rw [this]
      have : (q.emissionNat * n : Int) < ((2 : Int) ^ 63) := by exact_mod_cast h3
      simp only [INT64_MAX]
      push_cast at this ⊢
      linarith [this]
    · rw [getDelayTolerance_eq q (by omega) hb0 (h4 hb0)]
      exact_mod_cast Nat.mul_le_mul_left _ (hburst hb0)
  have heq := tryAcquire_eq q tat now n h1 h2 h3 h4 h5
  simp only [tryAcquireImmediate, hn0, hbf, Quota.hasRateLimiting,
    if_neg, heq] at hw
  rw [if_neg (by simp [hn0]), if_neg (by simp [hbf])] at hw
  rw [if_neg (by simp [Quota.hasRateLimiting]; omega)] at hw
  split at hw
  · next hgt =>
    simp only at hw
    rw [if_neg (by simp)] at hw
    simp only at hw
    obtain rfl : wi = ⟨max tat now + (q.emissionNat * n : Int) - q.getDelayTolerance,
        max tat now + (q.emissionNat * n : Int) - q.getDelayTolerance - now⟩ := by
      cases hw.symm
      rfl
    set earliest := max tat now + (q.emissionNat * n : Int) - q.getDelayTolerance with hearl
    have hnow' : now + (earliest - now) = earliest := by ring
    have h2' : 0 ≤ earliest := le_of_lt (lt_of_le_of_lt h2 hgt)
    have hearl_le : earliest ≤ max tat now := by
      rw [hearl]
      linarith
    have hmax' : max tat earliest ≤ max tat now :=
      max_le (le_max_left _ _) (le_trans hearl_le le_rfl)
    have h5' : max tat earliest + (q.emissionNat * n : Int) ≤ INT64_MAX := by
      linarith
    have heq2 := tryAcquire_eq q tat earliest n h1 h2' h3 h4 h5'
    have hle2 : ¬ max tat earliest + (q.emissionNat * n : Int) -
        q.getDelayTolerance > earliest := by
      push_neg
      rw [hearl]
      have htol0 := getDelayTolerance_nonneg q h4
      linarith
    rw [if_neg hle2] at heq2
    show (tryAcquireImmediate q tat (now + (earliest - now)) n).1 = none
    rw [hnow']
    simp only [tryAcquireImmediate]
    rw [if_neg (by simp [hn0]), if_neg (by simp [hbf])]
    rw [if_neg (by simp [Quota.hasRateLimiting]; omega)]
    simp [heq2]
  · next hle =>
    simp only at hw
    rw [if_pos (by simp)] at hw
    simp at hw

/-- Witness for C3 at the partial-refill scenario: rate 10/s, burst 10,
tat 1.5s, clock 0.5s, cost 1: the returned wait is 0.1s, and at clock
0.6s the same request admits. -/
theorem wait_then_admit_witness :
    (tryAcquireImmediate ⟨10, 10⟩ 1500000000
      (500000000 + (WaitInfo.mk 600000000 100000000).wait_duration) 1).1 = none :=
  wait_then_admit ⟨10, 10⟩ 1500000000 500000000 1 ⟨600000000, 100000000⟩
    (by decide) (fun _ => by decide) (by decide) (by decide) (by decide)
    (fun _ => by decide) (by decide) (by decide)

theorem Registry.insert_self (r : Registry) (k : ConfigKey) (c : OperationConfig) :
    (r.insert k c) k = some c := by
  simp [Registry.insert]

theorem Registry.remove_self (r : Registry) (k : ConfigKey) :
    (r.remove k) k = none := by
  simp [Registry.remove]

/-- C8: on any registry reachable through the configuration surface
(entries on non-READ/WRITE operations have burst 0), `SetQuota(k, 0, m)`
followed by `SetBurst(k, 0)` — or the two calls in the other order —
leaves no entry for `k`, so `GetConfig(k)` returns null; and
`SetQuota(k, 0, m)` with no existing entry for `k` is a no-op that
creates nothing. -/
theorem zero_rate_zero_burst_removes_entry (r : Registry) (name : String)
    (op : FileSystemOperation) (m : RateLimitMode)
    (hwf : Registry.WellFormed r) :
    (getConfig r name op = none →
      setQuota r name op 0 m = r) ∧
    getConfig ((setBurst (setQuota r name op 0 m) name op 0).1) name op = none ∧
    getConfig (setQuota ((setBurst r name op 0).1) name op 0 m) name op = none := by
  have hop := hwf ⟨name, op⟩
  refine ⟨?_, ?_, ?_⟩
  · intro hnone
    simp only [getConfig] at hnone
    simp [setQuota, hnone]
  · -- SetQuota(0) then SetBurst(0)
    rcases hk : r ⟨name, op⟩ with _ | c
    · -- no prior entry: SetQuota is a no-op, SetBurst(0) no-op or rejected
      simp only [setQuota, hk, if_pos]
      by_cases hrw : op ≠ FileSystemOperation.READ ∧ op ≠ FileSystemOperation.WRITE
      · simp [setBurst, if_pos hrw, getConfig, hk]
      · simp only [setBurst, if_neg hrw]
        simp [getConfig, hk]
    · by_cases hcb : c.burst = 0
      · -- entry erased by SetQuota already
        simp only [setQuota, hk]
        rw [if_pos (by simp [hcb])]
        by_cases hrw : op ≠ FileSystemOperation.READ ∧ op ≠ FileSystemOperation.WRITE
        · simp [setBurst, if_pos hrw, getConfig, Registry.remove_self]
        · simp only [setBurst, if_neg hrw]
          simp [getConfig, Registry.remove_self]
      · -- entry kept with quota 0, then erased by SetBurst
        have hrw : op = FileSystemOperation.READ ∨ op = FileSystemOperation.WRITE := by
          rcases hop c hk with h | h | h
          · exact Or.inl h
          · exact Or.inr h
          · exact absurd h hcb
        simp only [setQuota, hk]
        rw [if_neg (by simp [hcb])]
        simp only [setBurst]
        rw [if_neg (by rcases hrw with h | h <;> simp [h])]
        simp only [Registry.insert_self, updateRateLimiter]
        simp [getConfig, Registry.remove_self]
  · -- SetBurst(0) then SetQuota(0)
    by_cases hrw : op ≠ FileSystemOperation.READ ∧ op ≠ FileSystemOperation.WRITE
    · -- SetBurst rejected, registry unchanged
      simp only [setBurst, if_pos hrw]
      rcases hk : r ⟨name, op⟩ with _ | c
      · simp [setQuota, getConfig, hk]
      · have hcb : c.burst = 0 := by
          rcases hop c hk with h | h | h
          · exact absurd h hrw.1
          · exact absurd h hrw.2
          · exact h
        simp only [setQuota, hk]
        rw [if_pos (by simp [hcb])]
        simp [getConfig, Registry.remove_self]
    · simp only [setBurst, if_neg hrw]
      rcases hk : r ⟨name, op⟩ with _ | c
      · simp only [hk]
        simp [setQuota, getConfig, hk]
      · simp only [hk]
        by_cases hq : c.quota = 0
        · rw [if_pos (by simp [hq])]
          simp only [setQuota, Registry.remove_self]
          simp [getConfig, Registry.remove_self]
        · rw [if_neg (by simp [hq])]
          simp only [setQuota, Registry.insert_self, updateRateLimiter]
          rw [if_pos (by simp)]
          simp [getConfig, Registry.remove_self]

/-- Witness for C8 on the empty registry at key ("fs", READ). -/
theorem zero_rate_zero_burst_removes_entry_witness :
    (getConfig Registry.empty "fs" FileSystemOperation.READ = none →
      setQuota Registry.empty "fs" FileSystemOperation.READ 0
        RateLimitMode.BLOCKING = Registry.empty) ∧
    getConfig ((setBurst (setQuota Registry.empty "fs" FileSystemOperation.READ 0
      RateLimitMode.BLOCKING) "fs" FileSystemOperation.READ 0).1) "fs"
      FileSystemOperation.READ = none ∧
    getConfig (setQuota ((setBurst Registry.empty "fs" FileSystemOperation.READ 0).1)
      "fs" FileSystemOperation.READ 0 RateLimitMode.BLOCKING) "fs"
      FileSystemOperation.READ = none :=
  zero_rate_zero_burst_removes_entry Registry.empty "fs" FileSystemOperation.READ
    RateLimitMode.BLOCKING (fun _ c h => by simp [Registry.empty] at h)

theorem stepOk_spec {q : Quota} {tat now : Int} {n : Nat}
    (h : StepOk q tat now n = true) :
    0 ≤ tat ∧ 0 ≤ now ∧ q.emissionNat * n < 2 ^ 63 ∧
    (q.burst ≠ 0 → q.emissionNat * q.burst < 2 ^ 63) ∧
    max tat now + (q.emissionNat * n : Int) ≤ INT64_MAX := by
  simp only [StepOk, Bool.and_eq_true, Bool.or_eq_true, decide_eq_true_eq,
    beq_iff_eq] at h
  obtain ⟨⟨⟨⟨h1, h2⟩, h3⟩, h4⟩, h5⟩ := h
  exact ⟨h1, h2, h3, fun hb => h4.resolve_left hb, h5⟩

theorem inc_le_tol (q : Quota) (n : Nat)
    (h3 : q.emissionNat * n < 2 ^ 63)
    (h4 : q.burst ≠ 0 → q.emissionNat * q.burst < 2 ^ 63)
    (hnb : q.burst ≠ 0 → n ≤ q.burst) :
    (q.emissionNat * n : Int) ≤ q.getDelayTolerance := by
  by_cases hb0 : q.burst = 0
  · have htol : q.getDelayTolerance = INT64_MAX := by
      simp [Quota.getDelayTolerance, hb0]
    rw [htol]
    have hlt : (q.emissionNat * n : Int) < ((2 : Int) ^ 63) := by exact_mod_cast h3
    simp only [INT64_MAX]
    push_cast at hlt ⊢
    linarith
  · by_cases hbw : q.bandwidth = 0
    · have htol : q.getDelayTolerance = INT64_MAX := by
        simp [Quota.getDelayTolerance, hbw]
      rw [htol]
      have hlt : (q.emissionNat * n : Int) < ((2 : Int) ^ 63) := by exact_mod_cast h3
      simp only [INT64_MAX]
      push_cast at hlt ⊢
      linarith
    · rw [getDelayTolerance_eq q hbw hb0 (h4 hb0)]
      exact_mod_cast Nat.mul_le_mul_left _ (hnb hb0)

/-- In the overflow-free regime one `TryAcquire` attempt never decreases
the stored tat and keeps it non-negative. -/
theorem tryAcquire_tat_mono (q : Quota) (tat now : Int) (n : Nat)
    (h1 : 0 ≤ tat) (h2 : 0 ≤ now)
    (h3 : q.emissionNat * n < 2 ^ 63)
    (h4 : q.burst ≠ 0 → q.emissionNat * q.burst < 2 ^ 63)
    (h5 : max tat now + (q.emissionNat * n : Int) ≤ INT64_MAX) :
    tat ≤ (tryAcquire q tat now n).2 ∧ 0 ≤ (tryAcquire q tat now n).2 := by
  rw [tryAcquire_eq q tat now n h1 h2 h3 h4 h5]
  have hinc : (0 : Int) ≤ (q.emissionNat * n : Int) := by positivity
  have hle : tat ≤ max tat now + (q.emissionNat * n : Int) :=
    le_trans (le_max_left _ _) (by linarith)
  split_ifs
  · exact ⟨le_rfl, h1⟩
  · exact ⟨hle, le_trans h1 hle⟩

/-- A `TryAcquire` attempt that ends in a wait leaves the stored tat
untouched — unconditionally, overflow or not. -/
theorem tryAcquire_wait_preserves (q : Quota) (tat now : Int) (n : Nat)
    (h : (tryAcquire q tat now n).1.allowed = false) :
    (tryAcquire q tat now n).2 = tat := by
  simp only [tryAcquire] at h ⊢
  split_ifs at h ⊢
  simp_all

/-- A `TryAcquireImmediate` call that returns a wait (or the
burst-exceeded sentinel) leaves the stored tat untouched —
unconditionally. -/
theorem tryAcquireImmediate_wait_preserves (q : Quota) (tat now : Int) (n : Nat)
    (wi : WaitInfo) (h : (tryAcquireImmediate q tat now n).1 = some wi) :
    (tryAcquireImmediate q tat now n).2 = tat := by
  by_cases hn0 : n = 0
  · simp [tryAcquireImmediate, hn0] at h
  by_cases hb : (q.hasBurstLimiting && decide (n > q.burst)) = true
  · simp [tryAcquireImmediate, hn0, hb]
  by_cases hr : q.hasRateLimiting = true
  · simp only [tryAcquireImmediate, hn0, hb, hr] at h ⊢
    rw [if_neg (by simp [hn0]), if_neg (by simp [hb]), if_neg (by simp [hr])] at h ⊢
    by_cases hall : (tryAcquire q tat now n).1.allowed = true
    · simp [hall] at h
    · have hpr := tryAcquire_wait_preserves q tat now n (by simpa using hall)
      simp [hall, hpr]
  · simp [tryAcquireImmediate, hn0, hb, hr] at h

/-- In the overflow-free regime a `TryAcquireImmediate` call never
decreases the stored tat (and keeps it non-negative). -/
theorem tryAcquireImmediate_tat_mono (q : Quota) (tat now : Int) (n : Nat)
    (h : StepOk q tat now n = true) :
    tat ≤ (tryAcquireImmediate q tat now n).2 ∧
    0 ≤ (tryAcquireImmediate q tat now n).2 := by
  obtain ⟨h1, h2, h3, h4, h5⟩ := stepOk_spec h
  by_cases hn0 : n = 0
  · simp [tryAcquireImmediate, hn0]; exact h1
  by_cases hb : (q.hasBurstLimiting && decide (n > q.burst)) = true
  · simp only [tryAcquireImmediate]
    rw [if_neg (by simp [hn0]), if_pos (by simp [hb])]
    exact ⟨le_rfl, h1⟩
  by_cases hr : q.hasRateLimiting = true
  · simp only [tryAcquireImmediate]
    rw [if_neg (by simp [hn0]), if_neg (by simp [hb]), if_neg (by simp [hr])]
    have hm := tryAcquire_tat_mono q tat now n h1 h2 h3 h4 h5
    by_cases hall : (tryAcquire q tat now n).1.allowed = true
    · simpa [hall] using hm
    · have hpr := tryAcquire_wait_preserves q tat now n (by simpa using hall)
      rw [if_neg (by simp [hall])]
      simp only [hpr]
      exact ⟨le_rfl, h1⟩
  · simp only [tryAcquireImmediate]
    rw [if_neg (by simp [hn0]), if_neg (by simp [hb]), if_pos (by simp [hr])]
    exact ⟨le_rfl, h1⟩

/-- The blocking retry loop of `UntilNReady` never decreases the stored
tat, as long as the per-iteration arithmetic stays in range (which the
`inc ≤ tol` bound propagates through every sleep). -/
theorem untilNReadyLoop_tat_mono (q : Quota) (n : Nat)
    (h3 : q.emissionNat * n < 2 ^ 63)
    (h4 : q.burst ≠ 0 → q.emissionNat * q.burst < 2 ^ 63)
    (hit : (q.emissionNat * n : Int) ≤ q.getDelayTolerance) :
    ∀ fuel tat now, 0 ≤ tat → 0 ≤ now →
      max tat now + (q.emissionNat * n : Int) ≤ INT64_MAX →
      tat ≤ (untilNReadyLoop q n fuel tat now).2.1 ∧
      0 ≤ (untilNReadyLoop q n fuel tat now).2.1 := by
  intro fuel
  induction fuel with
  | zero =>
    intro tat now h1 h2 h5
    exact ⟨le_rfl, h1⟩
  | succ fuel ih =>
    intro tat now h1 h2 h5
    have heq := tryAcquire_eq q tat now n h1 h2 h3 h4 h5
    have hinc : (0 : Int) ≤ (q.emissionNat * n : Int) := by positivity
    by_cases hc : max tat now + (q.emissionNat * n : Int) - q.getDelayTolerance > now
    · rw [if_pos hc] at heq
      simp only [untilNReadyLoop, heq]
      have hearl_le : max tat now + (q.emissionNat * n : Int) - q.getDelayTolerance ≤
          max tat now := by linarith
      have hnow' : mockSleepUntil now
          (max tat now + (q.emissionNat * n : Int) - q.getDelayTolerance) =
          max tat now + (q.emissionNat * n : Int) - q.getDelayTolerance := by
        simp [mockSleepUntil, hc]
      rw [hnow']
      apply ih tat _ h1 (le_of_lt (lt_of_le_of_lt h2 hc))
      have : max tat (max tat now + (q.emissionNat * n : Int) - q.getDelayTolerance) ≤
          max tat now := max_le (le_max_left _ _) hearl_le
      linarith
    · rw [if_neg hc] at heq
      simp only [untilNReadyLoop, heq]
      have hle : tat ≤ max tat now + (q.emissionNat * n : Int) :=
        le_trans (le_max_left _ _) (by linarith)
      exact ⟨hle, le_trans h1 hle⟩

/-- Lemma: `UntilNReady` never decreases the stored tat in the overflow-free
regime. -/
theorem untilNReady_tat_mono (q : Quota) (fuel : Nat) (tat now : Int) (n : Nat)
    (h : StepOk q tat now n = true) :
    tat ≤ (untilNReady q fuel tat now n).2.1 ∧
    0 ≤ (untilNReady q fuel tat now n).2.1 := by
  obtain ⟨h1, h2, h3, h4, h5⟩ := stepOk_spec h
  by_cases hn0 : n = 0
  · simp [untilNReady, hn0]; exact h1
  by_cases hb : (q.hasBurstLimiting && decide (n > q.burst)) = true
  · simp only [untilNReady]
    rw [if_neg (by simp [hn0]), if_pos (by simp [hb])]
    exact ⟨le_rfl, h1⟩
  by_cases hr : q.hasRateLimiting = true
  · simp only [untilNReady]
    rw [if_neg (by simp [hn0]), if_neg (by simp [hb]), if_neg (by simp [hr])]
    have hnb : q.burst ≠ 0 → n ≤ q.burst := by
      intro hb0
      simp only [Bool.and_eq_true, decide_eq_true_eq, not_and, Quota.hasBurstLimiting] at hb
      by_contra hlt
      exact hb (by simpa using Nat.pos_of_ne_zero hb0) (by omega)
    exact untilNReadyLoop_tat_mono q n h3 h4 (inc_le_tol q n h3 h4 hnb)
      fuel tat now h1 h2 h5
  · simp only [untilNReady]
    rw [if_neg (by simp [hn0]), if_neg (by simp [hb]), if_pos (by simp [hr])]
    exact ⟨le_rfl, h1⟩

theorem callStepTat_mono (q : Quota) (tat : Int) (c : LimiterCall)
    (h : CallOk q tat c = true) :
    tat ≤ callStepTat q tat c ∧ 0 ≤ callStepTat q tat c := by
  cases c with
  | immediate now n => exact tryAcquireImmediate_tat_mono q tat now n h
  | blocking fuel now n => exact untilNReady_tat_mono q fuel tat now n h

theorem runCalls_tat_mono (q : Quota) (tat : Int) (calls : List LimiterCall)
    (h : TraceOk q tat calls = true) :
    tat ≤ runCalls q tat calls := by
  induction calls generalizing tat with
  | nil => exact le_rfl
  | cons c cs ih =>
    simp only [TraceOk, Bool.and_eq_true] at h
    have hc := callStepTat_mono q tat c h.1
    exact le_trans hc.1 (ih _ h.2)

/-- C9: across any sequence of `TryAcquireImmediate` and blocking
`UntilNReady` calls — at arbitrary, even regressing, clock times — the
stored `tat_nanos` is monotonically non-decreasing: a call that returns
a wait (or the burst sentinel) does not mutate it, and successful
admissions only ever replace it by a value at least as large (stated in
the regime where the int64 arithmetic of each call is overflow-free,
`StepOk`/`TraceOk`). -/
theorem tat_monotone_nondecreasing :
    (∀ (q : Quota) (tat now : Int) (n : Nat) (wi : WaitInfo),
      (tryAcquireImmediate q tat now n).1 = some wi →
      (tryAcquireImmediate q tat now n).2 = tat) ∧
    (∀ (q : Quota) (tat now : Int) (n : Nat), StepOk q tat now n = true →
      tat ≤ (tryAcquireImmediate q tat now n).2) ∧
    (∀ (q : Quota) (tat : Int) (calls : List LimiterCall),
      TraceOk q tat calls = true → tat ≤ runCalls q tat calls) :=
  ⟨tryAcquireImmediate_wait_preserves,
    fun q tat now n h => (tryAcquireImmediate_tat_mono q tat now n h).1,
    runCalls_tat_mono⟩

/-- Witness for C9: rate 10/s, burst 10, from the fresh state, an
admitted immediate call of cost 10 followed by a blocking call of cost 5
at a later clock time; the trace is overflow-free and the final tat is
at least the initial one. -/
theorem tat_monotone_nondecreasing_witness :
    TraceOk ⟨10, 10⟩ 0
      [LimiterCall.immediate 0 10, LimiterCall.blocking 2 500000000 5] = true ∧
    (0 : Int) ≤ runCalls ⟨10, 10⟩ 0
      [LimiterCall.immediate 0 10, LimiterCall.blocking 2 500000000 5] :=
  ⟨by decide, tat_monotone_nondecreasing.2.2 ⟨10, 10⟩ 0
    [LimiterCall.immediate 0 10, LimiterCall.blocking 2 500000000 5] (by decide)⟩

/-- C10 counterexample: at rate 2·10⁹ per second (above one unit per
nanosecond) and burst 1, the emission interval truncates to 0 — but with
stored tat 100 and the clock regressed to 50, the cost-1 attempt (which
passes the burst check) returns a Wait until 100 instead of admitting,
so such a quota is not unconditionally indistinguishable from disabled
rate limiting. -/
theorem high_rate_wait_counterexample :
    Quota.emissionNat ⟨2000000000, 1⟩ = 0 ∧
    (1 : Nat) ≤ (Quota.mk 2000000000 1).burst ∧
    (tryAcquireImmediate ⟨2000000000, 1⟩ 100 50 1).1 = some ⟨100, 50⟩ := by
  refine ⟨by decide, by decide, by decide⟩

/-- C10 amended: any rate above 10⁹ units per second yields emission
interval 0, hence increment 0 for every cost; provided the clock is at
or past the stored TAT (always the case under a non-regressing clock
started at or after the fresh TAT of 0), every attempt admits at once
and every cost passing the burst check gets `Admitted` from
`TryAcquireImmediate`, matching the outcomes of disabled rate
limiting. -/
theorem high_rate_admits (q : Quota) (tat now : Int) (n : Nat)
    (hr : 1000000000 < q.bandwidth)
    (h1 : 0 ≤ tat) (h2 : tat ≤ now) (h3 : now ≤ INT64_MAX) :
    q.emissionNat = 0 ∧ q.incrementNanos n = 0 ∧
    (tryAcquire q tat now n).1.allowed = true ∧
    ((q.hasBurstLimiting && decide (n > q.burst)) = false →
      (tryAcquireImmediate q tat now n).1 = none) := by
  have hbw0 : q.bandwidth ≠ 0 := by omega
  have he : q.emissionNat = 0 := by
    simp only [Quota.emissionNat]
    rw [if_neg hbw0]
    exact Nat.div_eq_of_lt hr
  have hinc : q.incrementNanos n = 0 := by
    simp [Quota.incrementNanos, he, toInt64, UINT64_MOD, INT64_HALF]
  have hnow0 : (0 : Int) ≤ now := le_trans h1 h2
  have hmax : max tat now = now := max_eq_right h2
  have hwnow : wrap64 (max tat now + 0) = now := by
    rw [hmax, add_zero]
    exact wrap64_of_range (by norm_num [INT64_HALF]; omega) h3
  have hall : (tryAcquire q tat now n).1.allowed = true := by
    simp only [tryAcquire, hinc, hwnow]
    by_cases hb0 : q.burst = 0
    · have htol : q.getDelayTolerance = INT64_MAX := by
        simp [Quota.getDelayTolerance, hb0]
      rw [htol]
      have hrange : wrap64 (now - INT64_MAX) = now - INT64_MAX := by
        apply wrap64_of_range
        · simp only [INT64_HALF, INT64_MAX] at *; omega
        · simp only [INT64_MAX] at *; omega
      rw [hrange]
      rw [if_neg (by simp only [INT64_MAX] at *; omega)]
    · have htol : q.getDelayTolerance = 0 := by
        rw [getDelayTolerance_eq q hbw0 hb0 (by simp [he])]
        simp [he]
      rw [htol, sub_zero]
      have : wrap64 now = now :=
        wrap64_of_range (by norm_num [INT64_HALF]; omega) h3
      rw [this]
      rw [if_neg (by omega)]
  refine ⟨he, hinc, hall, fun hbf => ?_⟩
  by_cases hn0 : n = 0
  · simp [tryAcquireImmediate, hn0]
  · simp only [tryAcquireImmediate]
    rw [if_neg (by simp [hn0]), if_neg (by simp [hbf]),
      if_neg (by simp [Quota.hasRateLimiting]; omega)]
    simp [hall]

/-- Witness for the amended C10: rate 1.5·10⁹/s, burst 5, tat 3, clock
time 10, cost 4. -/
theorem high_rate_admits_witness :
    Quota.emissionNat ⟨1500000000, 5⟩ = 0 ∧
    Quota.incrementNanos ⟨1500000000, 5⟩ 4 = 0 ∧
    (tryAcquire ⟨1500000000, 5⟩ 3 10 4).1.allowed = true ∧
    (((⟨1500000000, 5⟩ : Quota).hasBurstLimiting &&
        decide (4 > (⟨1500000000, 5⟩ : Quota).burst)) = false →
      (tryAcquireImmediate ⟨1500000000, 5⟩ 3 10 4).1 = none) :=
  high_rate_admits ⟨1500000000, 5⟩ 3 10 4 (by decide) (by decide) (by decide)
    (by decide)

end RateLimitFS
